import Mathlib

/-!
Verification development for the H/alpha 9-zone polarimetric SAR classifier
in ha9class.py.  The numeric values of the rasters are modelled by the type
F below: an IEEE-754 floating point value is either NaN, +infinity,
-infinity, or a finite value (modelled as a rational).  All comparisons
follow IEEE semantics: every comparison with NaN is false.  Grids are
lists of rows; the vectorized numpy operations of the source are modelled
by elementwise grid combinators, and the per-pixel meaning of the
classifier is derived as a theorem, not assumed.
-/

namespace HA9

/-- An IEEE-754 floating point value: NaN, +inf, -inf, or a finite value
(modelled by a rational number). -/
inductive F where
  | nan : F
  | pinf : F
  | ninf : F
  | val : ℚ → F
deriving DecidableEq, Repr

/-- np.isnan on a single value. -/
def isnan : F → Bool
  | .nan => true
  | _ => false

/-- IEEE comparison x <= y (false whenever either side is NaN). -/
def fle : F → F → Bool
  | .nan, _ => false
  | _, .nan => false
  | .ninf, _ => true
  | .pinf, .pinf => true
  | .pinf, _ => false
  | .val _, .pinf => true
  | .val _, .ninf => false
  | .val a, .val b => decide (a ≤ b)

/-- IEEE comparison x < y (false whenever either side is NaN). -/
def flt : F → F → Bool
  | .nan, _ => false
  | _, .nan => false
  | .ninf, .ninf => false
  | .ninf, _ => true
  | .pinf, _ => false
  | .val _, .pinf => true
  | .val _, .ninf => false
  | .val a, .val b => decide (a < b)

/-- IEEE comparison x > y, i.e. y < x. -/
def fgt (x y : F) : Bool := flt y x

/-- IEEE equality test x == y (false whenever either side is NaN). -/
def feq : F → F → Bool
  | .nan, _ => false
  | _, .nan => false
  | .pinf, .pinf => true
  | .pinf, _ => false
  | .val _, .pinf => false
  | .ninf, .ninf => true
  | .ninf, _ => false
  | .val _, .ninf => false
  | .val a, .val b => decide (a = b)

/-- The threshold parameters of classify_9zones: h_thresh = (h_lo, h_hi),
alpha_thresh_low_h = (a_l1, a_h1), alpha_thresh_med_h = (a_l2, a_h2),
alpha_thresh_high_h = (a_l3, a_h3). -/
structure Thresh where
  h_lo : ℚ
  h_hi : ℚ
  a_l1 : ℚ
  a_h1 : ℚ
  a_l2 : ℚ
  a_h2 : ℚ
  a_l3 : ℚ
  a_h3 : ℚ
deriving DecidableEq, Repr

/-- The default thresholds of the source: h_thresh = (0.5, 0.9),
alpha_thresh_low_h = (42.5, 52.5), alpha_thresh_med_h = (40.0, 50.0),
alpha_thresh_high_h = (45.0, 55.0). -/
def defaultThresh : Thresh :=
  { h_lo := mkRat 1 2, h_hi := mkRat 9 10,
    a_l1 := mkRat 85 2, a_h1 := mkRat 105 2,
    a_l2 := 40, a_h2 := 50,
    a_l3 := 45, a_h3 := 55 }

/-- The per-pixel meaning of the body of classify_9zones: the sequence of
masked assignments of the source, translated statement by statement; a
later assignment whose condition holds at this pixel overwrites an earlier
one, exactly as the numpy fancy assignments do. -/
def classifyPixel (t : Thresh) (h a : F) (nodata : Bool) : ℕ :=
  let mask_h_low := fle h (F.val t.h_lo)
  let mask_h_med := fgt h (F.val t.h_lo) && fle h (F.val t.h_hi)
  let mask_h_high := fgt h (F.val t.h_hi)
  let cls0 : ℕ := 0
  let cls1 := if mask_h_low && fle a (F.val t.a_l1) then 7 else cls0
  let cls2 := if mask_h_low && fgt a (F.val t.a_l1) && fle a (F.val t.a_h1) then 4 else cls1
  let cls3 := if mask_h_low && fgt a (F.val t.a_h1) then 1 else cls2
  let cls4 := if mask_h_med && fle a (F.val t.a_l2) then 8 else cls3
  let cls5 := if mask_h_med && fgt a (F.val t.a_l2) && fle a (F.val t.a_h2) then 5 else cls4
  let cls6 := if mask_h_med && fgt a (F.val t.a_h2) then 2 else cls5
  let cls7 := if mask_h_high && fle a (F.val t.a_l3) then 9 else cls6
  let cls8 := if mask_h_high && fgt a (F.val t.a_l3) && fle a (F.val t.a_h3) then 6 else cls7
  let cls9 := if mask_h_high && fgt a (F.val t.a_h3) then 3 else cls8
  if nodata then 0 else cls9

/-- Within one H bin, the three sequential alpha assignments of the source
amount to this chain (the later assignment wins). -/
def alphaChain (lo hi : ℚ) (c1 c2 c3 : ℕ) (a : F) : ℕ :=
  if fgt a (F.val hi) then c3
  else if fgt a (F.val lo) && fle a (F.val hi) then c2
  else if fle a (F.val lo) then c1
  else 0

theorem fle_not_flt (x y : F) (h : fle x y = true) : flt y x = false := by
  cases x <;> cases y <;> simp_all [fle, flt, not_lt]

theorem flt_not_fle (x y : F) (h : flt x y = true) : fle y x = false := by
  cases x <;> cases y <;> simp_all [fle, flt, not_le]

theorem fle_nonnan_left (x y : F) (h : fle x y = true) : isnan x = false := by
  cases x <;> simp_all [fle, isnan]

theorem fle_nonnan_right (x y : F) (h : fle x y = true) : isnan y = false := by
  cases x <;> cases y <;> simp_all [fle, isnan]

theorem flt_nonnan_left (x y : F) (h : flt x y = true) : isnan x = false := by
  cases x <;> simp_all [flt, isnan]

theorem flt_nonnan_right (x y : F) (h : flt x y = true) : isnan y = false := by
  cases x <;> cases y <;> simp_all [flt, isnan]

theorem fle_val_trans (x : F) (b c : ℚ) (h : fle x (F.val b) = true) (hbc : b ≤ c) :
    fle x (F.val c) = true := by
  cases x <;> simp_all [fle]
  linarith

theorem fle_val_not_flt (x : F) (b c : ℚ) (h : fle x (F.val b) = true) (hbc : b ≤ c) :
    flt (F.val c) x = false :=
  fle_not_flt x (F.val c) (fle_val_trans x b c h hbc)

theorem flt_val_not_fle (x : F) (b c : ℚ) (h : flt (F.val b) x = true) (hcb : c ≤ b) :
    fle x (F.val c) = false := by
  cases x <;> simp_all [fle, flt, not_le]
  linarith

theorem not_fle_fgt (x : F) (b : ℚ) (hnn : isnan x = false) (h : fle x (F.val b) = false) :
    flt (F.val b) x = true := by
  cases x <;> simp_all [fle, flt, isnan, not_le]

theorem not_fgt_fle (x : F) (b : ℚ) (hnn : isnan x = false) (h : flt (F.val b) x = false) :
    fle x (F.val b) = true := by
  cases x <;> simp_all [fle, flt, isnan, not_lt]

/-- In the Low H bin (H <= h_lo, thresholds ordered), the classifier
reduces to the Low alpha chain with classes 7 / 4 / 1. -/
theorem classifyPixel_low (t : Thresh) (hth : t.h_lo ≤ t.h_hi) (h a : F)
    (hl : fle h (F.val t.h_lo) = true) :
    classifyPixel t h a false = alphaChain t.a_l1 t.a_h1 7 4 1 a := by
  have hmed : fgt h (F.val t.h_lo) = false := fle_not_flt h (F.val t.h_lo) hl
  have hhigh : fgt h (F.val t.h_hi) = false := fle_val_not_flt h t.h_lo t.h_hi hl hth
  simp only [classifyPixel, alphaChain, fgt] at *
  simp [hl, hmed, hhigh]

/-- In the Medium H bin (h_lo < H <= h_hi), the classifier reduces to the
Medium alpha chain with classes 8 / 5 / 2. -/
theorem classifyPixel_med (t : Thresh) (h a : F)
    (h1 : fgt h (F.val t.h_lo) = true) (h2 : fle h (F.val t.h_hi) = true) :
    classifyPixel t h a false = alphaChain t.a_l2 t.a_h2 8 5 2 a := by
  have hlow : fle h (F.val t.h_lo) = false := flt_not_fle (F.val t.h_lo) h h1
  have hhigh : fgt h (F.val t.h_hi) = false := fle_not_flt h (F.val t.h_hi) h2
  simp only [classifyPixel, alphaChain, fgt] at *
  simp [h1, h2, hlow, hhigh]

/-- In the High H bin (H > h_hi, thresholds ordered), the classifier
reduces to the High alpha chain with classes 9 / 6 / 3. -/
theorem classifyPixel_high (t : Thresh) (hth : t.h_lo ≤ t.h_hi) (h a : F)
    (h3 : fgt h (F.val t.h_hi) = true) :
    classifyPixel t h a false = alphaChain t.a_l3 t.a_h3 9 6 3 a := by
  have hlow : fle h (F.val t.h_lo) = false := flt_val_not_fle h t.h_hi t.h_lo h3 hth
  have hmed : fle h (F.val t.h_hi) = false := flt_not_fle (F.val t.h_hi) h h3
  simp only [classifyPixel, alphaChain, fgt] at *
  simp [h3, hlow, hmed]

/-- With an ordered alpha threshold pair, the alpha chain realizes the
three sub-bin cases of the table. -/
theorem alphaChain_spec (lo hi : ℚ) (c1 c2 c3 : ℕ) (a : F) (hlh : lo ≤ hi) :
    (fle a (F.val lo) = true → alphaChain lo hi c1 c2 c3 a = c1) ∧
    (fgt a (F.val lo) = true → fle a (F.val hi) = true → alphaChain lo hi c1 c2 c3 a = c2) ∧
    (fgt a (F.val hi) = true → alphaChain lo hi c1 c2 c3 a = c3) := by
  refine ⟨fun hc1 => ?_, fun hg hc2 => ?_, fun hc3 => ?_⟩
  · have h1 : fgt a (F.val hi) = false := fle_val_not_flt a lo hi hc1 hlh
    have h2 : fgt a (F.val lo) = false := fle_not_flt a (F.val lo) hc1
    simp [alphaChain, h1, h2, hc1]
  · have h1 : fgt a (F.val hi) = false := fle_not_flt a (F.val hi) hc2
    simp [alphaChain, h1, hg, hc2]
  · simp [alphaChain, hc3]

/-- For a non-NaN alpha, the alpha chain always lands in one of the three
sub-bin classes, whatever the threshold pair. -/
theorem alphaChain_mem (lo hi : ℚ) (c1 c2 c3 : ℕ) (a : F) (hnn : isnan a = false) :
    alphaChain lo hi c1 c2 c3 a = c1 ∨ alphaChain lo hi c1 c2 c3 a = c2 ∨
      alphaChain lo hi c1 c2 c3 a = c3 := by
  unfold alphaChain
  by_cases h3 : fgt a (F.val hi) = true
  · simp [h3]
  · have h3f : fgt a (F.val hi) = false := by revert h3; cases fgt a (F.val hi) <;> simp
    have hhi : fle a (F.val hi) = true := not_fgt_fle a hi hnn h3f
    by_cases hlo : fle a (F.val lo) = true
    · have h2 : fgt a (F.val lo) = false := fle_not_flt a (F.val lo) hlo
      simp [h3f, h2, hlo]
    · have hlof : fle a (F.val lo) = false := by revert hlo; cases fle a (F.val lo) <;> simp
      have hg : fgt a (F.val lo) = true := not_fle_fgt a lo hnn hlof
      simp [h3f, hg, hhi]

/-- A non-NaN value falls in at least one of the three bins cut by two
breakpoints, whatever their order: x <= b, or b < x <= c, or x > c. -/
theorem hbin_trichotomy (x : F) (b c : ℚ) (hnn : isnan x = false) :
    fle x (F.val b) = true ∨
      (flt (F.val b) x = true ∧ fle x (F.val c) = true) ∨
      flt (F.val c) x = true := by
  cases x with
  | nan => simp [isnan] at hnn
  | pinf => right; right; simp [flt]
  | ninf => left; simp [fle]
  | val q =>
    rcases le_or_lt q b with hb | hb
    · left; simp [fle, hb]
    · rcases le_or_lt q c with hc | hc
      · right; left; simp [fle, flt, hb, hc]
      · right; right; simp [flt, hc]

set_option maxHeartbeats 1600000 in
/-- The classifier output is always at most 9, for any inputs, thresholds
and mask value. -/
theorem classifyPixel_le9 (t : Thresh) (h a : F) (m : Bool) :
    classifyPixel t h a m ≤ 9 := by
  simp only [classifyPixel]
  split_ifs <;> omega

set_option maxHeartbeats 1600000 in
/-- For any thresholds (ordered or not), a pixel with non-NaN H and alpha
and a false mask gets a nonzero class: some bin always catches it. -/
theorem classifyPixel_pos (t : Thresh) (h a : F)
    (hh : isnan h = false) (ha : isnan a = false) :
    1 ≤ classifyPixel t h a false := by
  simp only [classifyPixel, fgt, Bool.false_eq_true, if_false]
  split_ifs <;> try omega
  exfalso
  rcases hbin_trichotomy h t.h_lo t.h_hi hh with hl | ⟨hm1, hm2⟩ | hhi
  · rcases hbin_trichotomy a t.a_l1 t.a_h1 ha with h1 | ⟨h2a, h2b⟩ | h3 <;> simp_all
  · rcases hbin_trichotomy a t.a_l2 t.a_h2 ha with h1 | ⟨h2a, h2b⟩ | h3 <;> simp_all
  · rcases hbin_trichotomy a t.a_l3 t.a_h3 ha with h1 | ⟨h2a, h2b⟩ | h3 <;> simp_all

/-- The nine (H bin, alpha sub-bin) membership tests of the source, in the
order of the nine masked assignments of classify_9zones. -/
def combos (t : Thresh) (h a : F) : List Bool :=
  [fle h (F.val t.h_lo) && fle a (F.val t.a_l1),
   fle h (F.val t.h_lo) && fgt a (F.val t.a_l1) && fle a (F.val t.a_h1),
   fle h (F.val t.h_lo) && fgt a (F.val t.a_h1),
   (fgt h (F.val t.h_lo) && fle h (F.val t.h_hi)) && fle a (F.val t.a_l2),
   (fgt h (F.val t.h_lo) && fle h (F.val t.h_hi)) && fgt a (F.val t.a_l2) && fle a (F.val t.a_h2),
   (fgt h (F.val t.h_lo) && fle h (F.val t.h_hi)) && fgt a (F.val t.a_h2),
   fgt h (F.val t.h_hi) && fle a (F.val t.a_l3),
   fgt h (F.val t.h_hi) && fgt a (F.val t.a_l3) && fle a (F.val t.a_h3),
   fgt h (F.val t.h_hi) && fgt a (F.val t.a_h3)]

/-- With ordered thresholds, a pixel with non-NaN values satisfies exactly
one of the nine (H bin, alpha sub-bin) membership tests. -/
theorem combos_count_one (t : Thresh) (h a : F)
    (hth : t.h_lo ≤ t.h_hi) (o1 : t.a_l1 ≤ t.a_h1) (o2 : t.a_l2 ≤ t.a_h2)
    (o3 : t.a_l3 ≤ t.a_h3) (hh : isnan h = false) (ha : isnan a = false) :
    (combos t h a).count true = 1 := by
  rcases hbin_trichotomy h t.h_lo t.h_hi hh with hl | ⟨hm1, hm2⟩ | hhi
  · have e1 : flt (F.val t.h_lo) h = false := fle_not_flt h (F.val t.h_lo) hl
    have e2 : flt (F.val t.h_hi) h = false := fle_val_not_flt h t.h_lo t.h_hi hl hth
    rcases hbin_trichotomy a t.a_l1 t.a_h1 ha with h1 | ⟨h2a, h2b⟩ | h3
    · have f1 : flt (F.val t.a_l1) a = false := fle_not_flt a (F.val t.a_l1) h1
      have f2 : flt (F.val t.a_h1) a = false := fle_val_not_flt a t.a_l1 t.a_h1 h1 o1
      simp [combos, fgt, hl, h1, e1, e2, f1, f2]
    · have f1 : flt (F.val t.a_h1) a = false := fle_not_flt a (F.val t.a_h1) h2b
      have f2 : fle a (F.val t.a_l1) = false := flt_not_fle (F.val t.a_l1) a h2a
      simp [combos, fgt, hl, h2a, h2b, e1, e2, f1, f2]
    · have f1 : fle a (F.val t.a_l1) = false := flt_val_not_fle a t.a_h1 t.a_l1 h3 o1
      have f2 : fle a (F.val t.a_h1) = false := flt_not_fle (F.val t.a_h1) a h3
      simp [combos, fgt, hl, h3, e1, e2, f1, f2]
  · have e1 : fle h (F.val t.h_lo) = false := flt_not_fle (F.val t.h_lo) h hm1
    have e2 : flt (F.val t.h_hi) h = false := fle_not_flt h (F.val t.h_hi) hm2
    rcases hbin_trichotomy a t.a_l2 t.a_h2 ha with h1 | ⟨h2a, h2b⟩ | h3
    · have f1 : flt (F.val t.a_l2) a = false := fle_not_flt a (F.val t.a_l2) h1
      have f2 : flt (F.val t.a_h2) a = false := fle_val_not_flt a t.a_l2 t.a_h2 h1 o2
      simp [combos, fgt, hm1, hm2, h1, e1, e2, f1, f2]
    · have f1 : flt (F.val t.a_h2) a = false := fle_not_flt a (F.val t.a_h2) h2b
      have f2 : fle a (F.val t.a_l2) = false := flt_not_fle (F.val t.a_l2) a h2a
      simp [combos, fgt, hm1, hm2, h2a, h2b, e1, e2, f1, f2]
    · have f1 : fle a (F.val t.a_l2) = false := flt_val_not_fle a t.a_h2 t.a_l2 h3 o2
      have f2 : fle a (F.val t.a_h2) = false := flt_not_fle (F.val t.a_h2) a h3
      simp [combos, fgt, hm1, hm2, h3, e1, e2, f1, f2]
  · have e1 : fle h (F.val t.h_lo) = false := flt_val_not_fle h t.h_hi t.h_lo hhi hth
    have e2 : fle h (F.val t.h_hi) = false := flt_not_fle (F.val t.h_hi) h hhi
    rcases hbin_trichotomy a t.a_l3 t.a_h3 ha with h1 | ⟨h2a, h2b⟩ | h3
    · have f1 : flt (F.val t.a_l3) a = false := fle_not_flt a (F.val t.a_l3) h1
      have f2 : flt (F.val t.a_h3) a = false := fle_val_not_flt a t.a_l3 t.a_h3 h1 o3
      simp [combos, fgt, hhi, h1, e1, e2, f1, f2]
    · have f1 : flt (F.val t.a_h3) a = false := fle_not_flt a (F.val t.a_h3) h2b
      have f2 : fle a (F.val t.a_l3) = false := flt_not_fle (F.val t.a_l3) a h2a
      simp [combos, fgt, hhi, h2a, h2b, e1, e2, f1, f2]
    · have f1 : fle a (F.val t.a_l3) = false := flt_val_not_fle a t.a_h3 t.a_l3 h3 o3
      have f2 : fle a (F.val t.a_h3) = false := flt_not_fle (F.val t.a_h3) a h3
      simp [combos, fgt, hhi, h3, e1, e2, f1, f2]

/-- A raster grid: a list of rows. -/
abbrev Grid (α : Type) := List (List α)

/-- Elementwise map over a grid (a vectorized unary numpy operation). -/
def gmap {α β : Type} (f : α → β) (g : Grid α) : Grid β := g.map (List.map f)

/-- Elementwise combination of two grids (a vectorized binary numpy
operation on same-shape arrays). -/
def gzip {α β γ : Type} (f : α → β → γ) (x : Grid α) (y : Grid β) : Grid γ :=
  List.zipWith (List.zipWith f) x y

/-- One row of a numpy masked assignment xs[cond] = v. -/
def rowSetWhere {α : Type} (cond : List Bool) (v : α) (xs : List α) : List α :=
  List.zipWith (fun c x => if c then v else x) cond xs

/-- The numpy masked assignment cls[cond] = v on a whole grid. -/
def npSetWhere {α : Type} (cond : Grid Bool) (v : α) (cls : Grid α) : Grid α :=
  List.zipWith (fun c x => rowSetWhere c v x) cond cls

/-- The row lengths of a grid: its shape. -/
def gdims {α : Type} (g : Grid α) : List ℕ := g.map List.length

/-- Total pixel read with a default value. -/
def gget {α : Type} (g : Grid α) (d : α) (i j : ℕ) : α := (g.getD i []).getD j d

/-- Elementwise combination of three equal-length lists. -/
def zip3With {α β γ δ : Type} (f : α → β → γ → δ) : List α → List β → List γ → List δ
  | a :: x, b :: y, c :: z => f a b c :: zip3With f x y z
  | _, _, _ => []

/-- Elementwise combination of three same-shape grids. -/
def gzip3 {α β γ δ : Type} (f : α → β → γ → δ) (x : Grid α) (y : Grid β) (z : Grid γ) :
    Grid δ :=
  zip3With (zip3With f) x y z

/-- The nodata mask derived when none is supplied: true where H is NaN or
alpha_deg is NaN (np.isnan(H) | np.isnan(alpha_deg)). -/
def derivedMask (H alpha_deg : Grid F) : Grid Bool :=
  gzip (fun x y => isnan x || isnan y) H alpha_deg

/-- classify_9zones, translated line by line: the three entropy bin masks,
the nine masked assignments in source order, then the nodata overwrite;
when no mask is supplied it is derived from the NaNs of the inputs. -/
def classify_9zones (t : Thresh) (H alpha_deg : Grid F)
    (nodata_mask : Option (Grid Bool)) : Grid ℕ :=
  let mask_h_low := gmap (fun x => fle x (F.val t.h_lo)) H
  let mask_h_med := gmap (fun x => fgt x (F.val t.h_lo) && fle x (F.val t.h_hi)) H
  let mask_h_high := gmap (fun x => fgt x (F.val t.h_hi)) H
  let cls : Grid ℕ := gmap (fun _ => 0) H
  let cls := npSetWhere (gzip (fun m a => m && fle a (F.val t.a_l1)) mask_h_low alpha_deg) 7 cls
  let cls := npSetWhere (gzip (fun m a => m && fgt a (F.val t.a_l1) && fle a (F.val t.a_h1)) mask_h_low alpha_deg) 4 cls
  let cls := npSetWhere (gzip (fun m a => m && fgt a (F.val t.a_h1)) mask_h_low alpha_deg) 1 cls
  let cls := npSetWhere (gzip (fun m a => m && fle a (F.val t.a_l2)) mask_h_med alpha_deg) 8 cls
  let cls := npSetWhere (gzip (fun m a => m && fgt a (F.val t.a_l2) && fle a (F.val t.a_h2)) mask_h_med alpha_deg) 5 cls
  let cls := npSetWhere (gzip (fun m a => m && fgt a (F.val t.a_h2)) mask_h_med alpha_deg) 2 cls
  let cls := npSetWhere (gzip (fun m a => m && fle a (F.val t.a_l3)) mask_h_high alpha_deg) 9 cls
  let cls := npSetWhere (gzip (fun m a => m && fgt a (F.val t.a_l3) && fle a (F.val t.a_h3)) mask_h_high alpha_deg) 6 cls
  let cls := npSetWhere (gzip (fun m a => m && fgt a (F.val t.a_h3)) mask_h_high alpha_deg) 3 cls
  let nm := match nodata_mask with
    | some m => m
    | none => derivedMask H alpha_deg
  npSetWhere nm 0 cls

/-- One row of classify_9zones: the same chain of masked assignments,
restricted to a single row of each input. -/
def classifyRowChain (t : Thresh) (h a : List F) (nm : List Bool) : List ℕ :=
  let mask_h_low := h.map (fun x => fle x (F.val t.h_lo))
  let mask_h_med := h.map (fun x => fgt x (F.val t.h_lo) && fle x (F.val t.h_hi))
  let mask_h_high := h.map (fun x => fgt x (F.val t.h_hi))
  let cls : List ℕ := h.map (fun _ => 0)
  let cls := rowSetWhere (List.zipWith (fun m a => m && fle a (F.val t.a_l1)) mask_h_low a) 7 cls
  let cls := rowSetWhere (List.zipWith (fun m a => m && fgt a (F.val t.a_l1) && fle a (F.val t.a_h1)) mask_h_low a) 4 cls
  let cls := rowSetWhere (List.zipWith (fun m a => m && fgt a (F.val t.a_h1)) mask_h_low a) 1 cls
  let cls := rowSetWhere (List.zipWith (fun m a => m && fle a (F.val t.a_l2)) mask_h_med a) 8 cls
  let cls := rowSetWhere (List.zipWith (fun m a => m && fgt a (F.val t.a_l2) && fle a (F.val t.a_h2)) mask_h_med a) 5 cls
  let cls := rowSetWhere (List.zipWith (fun m a => m && fgt a (F.val t.a_h2)) mask_h_med a) 2 cls
  let cls := rowSetWhere (List.zipWith (fun m a => m && fle a (F.val t.a_l3)) mask_h_high a) 9 cls
  let cls := rowSetWhere (List.zipWith (fun m a => m && fgt a (F.val t.a_l3) && fle a (F.val t.a_h3)) mask_h_high a) 6 cls
  let cls := rowSetWhere (List.zipWith (fun m a => m && fgt a (F.val t.a_h3)) mask_h_high a) 3 cls
  rowSetWhere nm 0 cls

/-- One row of the classifier is the pointwise classifier. -/
theorem classifyRowChain_eq (t : Thresh) :
    ∀ (h a : List F) (nm : List Bool),
      classifyRowChain t h a nm = zip3With (fun x y z => classifyPixel t x y z) h a nm := by
  intro h
  induction h with
  | nil => intro a nm; cases a <;> cases nm <;> rfl
  | cons x h ih =>
    intro a nm
    cases a with
    | nil => cases nm <;> rfl
    | cons y a =>
      cases nm with
      | nil => rfl
      | cons z nm =>
        show classifyPixel t x y z :: classifyRowChain t h a nm
            = classifyPixel t x y z :: zip3With (fun x y z => classifyPixel t x y z) h a nm
        rw [ih]

/-- The grid classifier with an explicit mask is the pointwise classifier
applied to the three grids. -/
theorem classify_some_eq (t : Thresh) :
    ∀ (H A : Grid F) (M : Grid Bool),
      classify_9zones t H A (some M)
        = gzip3 (fun x y z => classifyPixel t x y z) H A M := by
  intro H
  induction H with
  | nil => intro A M; cases A <;> cases M <;> rfl
  | cons r H ih =>
    intro A M
    cases A with
    | nil => cases M <;> rfl
    | cons s A =>
      cases M with
      | nil => rfl
      | cons q M =>
        show classifyRowChain t r s q :: classify_9zones t H A (some M)
            = zip3With (fun x y z => classifyPixel t x y z) r s q
                :: gzip3 (fun x y z => classifyPixel t x y z) H A M
        rw [ih, classifyRowChain_eq]

/-- With no supplied mask the classifier runs with the NaN-derived mask. -/
theorem classify_none_eq (t : Thresh) (H A : Grid F) :
    classify_9zones t H A none = classify_9zones t H A (some (derivedMask H A)) := rfl

theorem getD_map {α β : Type} (f : α → β) (x : List α) (i : ℕ) (hx : i < x.length)
    (dx : α) (db : β) : (x.map f).getD i db = f (x.getD i dx) := by
  induction x generalizing i with
  | nil => simp at hx
  | cons a x ih =>
    cases i with
    | zero => rfl
    | succ i =>
      simp only [List.map_cons, List.getD_cons_succ]
      exact ih i (by simpa using hx)

theorem getD_zipWith {α β γ : Type} (f : α → β → γ) (x : List α) (y : List β) (i : ℕ)
    (hx : i < x.length) (hy : i < y.length) (dx : α) (dy : β) (dz : γ) :
    (List.zipWith f x y).getD i dz = f (x.getD i dx) (y.getD i dy) := by
  induction x generalizing y i with
  | nil => simp at hx
  | cons a x ih =>
    cases y with
    | nil => simp at hy
    | cons b y =>
      cases i with
      | zero => rfl
      | succ i =>
        simp only [List.zipWith_cons_cons, List.getD_cons_succ]
        exact ih y i (by simpa using hx) (by simpa using hy)

theorem getD_zip3With {α β γ δ : Type} (f : α → β → γ → δ) (x : List α) (y : List β)
    (z : List γ) (i : ℕ) (hx : i < x.length) (hy : i < y.length) (hz : i < z.length)
    (dx : α) (dy : β) (dz : γ) (dw : δ) :
    (zip3With f x y z).getD i dw = f (x.getD i dx) (y.getD i dy) (z.getD i dz) := by
  induction x generalizing y z i with
  | nil => simp at hx
  | cons a x ih =>
    cases y with
    | nil => simp at hy
    | cons b y =>
      cases z with
      | nil => simp at hz
      | cons c z =>
        cases i with
        | zero => rfl
        | succ i =>
          simp only [zip3With, List.getD_cons_succ]
          exact ih y z i (by simpa using hx) (by simpa using hy) (by simpa using hz)

theorem gdims_length {α : Type} (g : Grid α) : (gdims g).length = g.length := by
  simp [gdims]

theorem gdims_row {α : Type} (g : Grid α) (i : ℕ) :
    (gdims g).getD i 0 = (g.getD i []).length := by
  induction g generalizing i with
  | nil => simp [gdims]
  | cons r g ih =>
    cases i with
    | zero => rfl
    | succ i => simpa [gdims] using ih i

theorem gdims_gzip {α β γ : Type} (f : α → β → γ) :
    ∀ (x : Grid α) (y : Grid β), gdims y = gdims x → gdims (gzip f x y) = gdims x := by
  intro x
  induction x with
  | nil =>
    intro y h
    have : y = [] := by
      cases y with
      | nil => rfl
      | cons r y => simp [gdims] at h
    subst this
    rfl
  | cons r x ih =>
    intro y h
    cases y with
    | nil => simp [gdims] at h
    | cons s y =>
      simp only [gdims, List.map_cons, List.cons.injEq] at h
      obtain ⟨h1, h2⟩ := h
      simp only [gzip, List.zipWith_cons_cons, gdims, List.map_cons, List.cons.injEq]
      constructor
      · simp [h1]
      · exact ih y h2

theorem gget_gzip {α β γ : Type} (f : α → β → γ) (x : Grid α) (y : Grid β) (i j : ℕ)
    (hxi : i < x.length) (hyi : i < y.length)
    (hxj : j < (x.getD i []).length) (hyj : j < (y.getD i []).length)
    (dx : α) (dy : β) (dz : γ) :
    gget (gzip f x y) dz i j = f (gget x dx i j) (gget y dy i j) := by
  unfold gget gzip
  rw [getD_zipWith (List.zipWith f) x y i hxi hyi [] []]
  exact getD_zipWith f _ _ j hxj hyj dx dy dz

theorem gget_gzip3 {α β γ δ : Type} (f : α → β → γ → δ) (x : Grid α) (y : Grid β)
    (z : Grid γ) (i j : ℕ)
    (hxi : i < x.length) (hyi : i < y.length) (hzi : i < z.length)
    (hxj : j < (x.getD i []).length) (hyj : j < (y.getD i []).length)
    (hzj : j < (z.getD i []).length)
    (dx : α) (dy : β) (dz : γ) (dw : δ) :
    gget (gzip3 f x y z) dw i j = f (gget x dx i j) (gget y dy i j) (gget z dz i j) := by
  unfold gget gzip3
  rw [getD_zip3With (zip3With f) x y z i hxi hyi hzi [] [] []]
  exact getD_zip3With f _ _ _ j hxj hyj hzj dx dy dz dw

/-- The central pointwise bridge: each output pixel of classify_9zones is
classifyPixel of that pixel's H, alpha and mask entries. -/
theorem classify_gget (t : Thresh) (H A : Grid F) (M : Grid Bool) (i j : ℕ)
    (hA : gdims A = gdims H) (hM : gdims M = gdims H)
    (hi : i < H.length) (hj : j < (H.getD i []).length) :
    gget (classify_9zones t H A (some M)) 0 i j
      = classifyPixel t (gget H F.nan i j) (gget A F.nan i j) (gget M false i j) := by
  have lA : A.length = H.length := by
    have := congrArg List.length hA
    simpa [gdims_length] using this
  have lM : M.length = H.length := by
    have := congrArg List.length hM
    simpa [gdims_length] using this
  have rA : (A.getD i []).length = (H.getD i []).length := by
    rw [← gdims_row, ← gdims_row, hA]
  have rM : (M.getD i []).length = (H.getD i []).length := by
    rw [← gdims_row, ← gdims_row, hM]
  rw [classify_some_eq]
  exact gget_gzip3 _ H A M i j hi (lA ▸ hi) (lM ▸ hi) hj (rA ▸ hj) (rM ▸ hj)
      F.nan F.nan false 0

/-- One reduction step of np.nanmax: a NaN element is skipped, anything
else (including the infinities) competes for the maximum. -/
def fmaxn (acc x : F) : F :=
  if isnan x then acc
  else if isnan acc then x
  else if flt acc x then x
  else acc

/-- np.nanmax over a list of values: the maximum ignoring NaNs; NaN when
every value is NaN. -/
def nanmax (l : List F) : F := l.foldl fmaxn F.nan

/-- autodetect_alpha_units: radians when np.nanmax(alpha_arr) <= 1.7,
degrees otherwise (so also degrees when the nanmax is NaN). -/
def autodetect_alpha_units (alpha_arr : Grid F) : String :=
  let amax := nanmax alpha_arr.flatten
  if fle amax (F.val (mkRat 17 10)) then "radians" else "degrees"

/-- np.degrees on one value: a finite x becomes x * (180 / pi), NaN and
the infinities are fixed.  Since 180 / pi is irrational it cannot be a
rational constant; the conversion factor is the parameter c, and nothing
below depends on its value. -/
def np_degrees (c : ℚ) : F → F
  | .nan => F.nan
  | .pinf => F.pinf
  | .ninf => F.ninf
  | .val q => F.val (q * c)

/-- convert_alpha_to_degrees: convert the whole grid exactly when the
units autodetect as radians. -/
def convert_alpha_to_degrees (c : ℚ) (alpha_arr : Grid F) : Grid F :=
  if autodetect_alpha_units alpha_arr = "radians" then gmap (np_degrees c) alpha_arr
  else alpha_arr

/-- Does every finite value stay at or below the bound b?  (True for NaN
and the infinities: they are not finite values.) -/
def finiteLe (b : ℚ) : F → Bool
  | .val q => decide (q ≤ b)
  | _ => true

/-- np.fromfile with a count argument: it reads at most count elements and
silently returns fewer when the file is shorter; data is the list of
complete elements stored in the file. -/
def np_fromfile (data : List F) (count : ℕ) : List F := data.take count

/-- numpy reshape of a flat vector to (height, width), row-major. -/
def reshape (a : List F) (height width : ℕ) : Grid F :=
  (List.range height).map (fun i => (a.drop (i * width)).take width)

/-- read_raw_binary: read width * height elements with np.fromfile and
raise the size-mismatch ValueError when fewer were obtained. -/
def read_raw_binary (data : List F) (width height : ℕ) : Except String (Grid F) :=
  let count := width * height
  let a := np_fromfile data count
  if a.length ≠ count then
    Except.error "Raw file size mismatch"
  else
    Except.ok (reshape a height width)

/-- First clamp statement of main: H[H > 1.0] = 1.0 on one value. -/
def clamp1 (x : F) : F := if fgt x (F.val 1) then F.val 1 else x

/-- Second clamp statement of main: H[H < 0.0] = 0.0 on one value. -/
def clamp0 (x : F) : F := if flt x (F.val 0) then F.val 0 else x

/-- The orchestrator clamp of main: H[H > 1.0] = 1.0 then
H[H < 0.0] = 0.0, two whole-grid masked assignments in sequence. -/
def clampGrid (H : Grid F) : Grid F :=
  gmap (fun x => clamp0 x) (gmap (fun x => clamp1 x) H)

/-- The classification fragment of main (after loading): convert alpha
units, build the nodata mask from each input declared sentinel (falling
back to a NaN test when the sentinel is absent), clamp H, and classify.
The mask is computed before the clamp, exactly as in the source.  c is
the radians-to-degrees factor passed through to np.degrees. -/
def main_classify (c : ℚ) (t : Thresh) (H Alpha : Grid F)
    (nodata nodata2 : Option F) : Grid ℕ :=
  let alpha_deg := convert_alpha_to_degrees c Alpha
  let mask1 := match nodata with
    | some v => gmap (fun x => feq x v) H
    | none => gmap (fun x => isnan x) H
  let mask2 := match nodata2 with
    | some v => gmap (fun x => feq x v) Alpha
    | none => gmap (fun x => isnan x) Alpha
  let nodata_mask := gzip (fun x y => x || y) mask1 mask2
  let Hc := clampGrid H
  classify_9zones t Hc alpha_deg (some nodata_mask)

/-- Two H values the clamp step cannot distinguish: equal, or the first
above 1.0 and the second exactly 1.0, or the first below 0.0 and the
second exactly 0.0. -/
def clampEquiv (x y : F) : Prop :=
  x = y ∨ (fgt x (F.val 1) = true ∧ y = F.val 1) ∨ (flt x (F.val 0) = true ∧ y = F.val 0)

theorem fle_refl_nonnan (x : F) (h : isnan x = false) : fle x x = true := by
  cases x <;> simp_all [fle, isnan]

theorem flt_fle (x y : F) (h : flt x y = true) : fle x y = true := by
  cases x <;> cases y <;> simp_all [fle, flt]
  linarith

theorem flt_false_fle (x y : F) (hx : isnan x = false) (hy : isnan y = false)
    (h : flt x y = false) : fle y x = true := by
  cases x <;> cases y <;> simp_all [fle, flt, isnan, not_lt]

theorem fle_trans (x y z : F) (h1 : fle x y = true) (h2 : fle y z = true) :
    fle x z = true := by
  cases x <;> cases y <;> cases z <;> simp_all [fle]
  linarith

theorem fmaxn_nonnan (acc x : F) (h : isnan acc = false ∨ isnan x = false) :
    isnan (fmaxn acc x) = false := by
  unfold fmaxn
  split_ifs with h1 h2 h3
  · rcases h with ha | hx
    · exact ha
    · simp_all
  · simpa using h1
  · simpa using h1
  · simpa using h2

theorem foldl_fmaxn_nonnan (l : List F) :
    ∀ acc, isnan acc = false → isnan (l.foldl fmaxn acc) = false := by
  induction l with
  | nil => intro acc h; simpa using h
  | cons x l ih => intro acc h; exact ih _ (fmaxn_nonnan acc x (Or.inl h))

theorem foldl_fmaxn_nonnan_of_mem (x : F) (hnn : isnan x = false) :
    ∀ (l : List F) (acc : F), x ∈ l → isnan (l.foldl fmaxn acc) = false := by
  intro l
  induction l with
  | nil => intro acc h; simp at h
  | cons y l ih =>
    intro acc h
    rcases List.mem_cons.1 h with rfl | hm
    · exact foldl_fmaxn_nonnan l _ (fmaxn_nonnan acc x (Or.inr hnn))
    · exact ih _ hm

theorem nanmax_nonnan (l : List F) (h : ∃ x ∈ l, isnan x = false) :
    isnan (nanmax l) = false := by
  obtain ⟨x, hx, hnn⟩ := h
  exact foldl_fmaxn_nonnan_of_mem x hnn l F.nan hx

theorem fmaxn_eq_or (acc x : F) : fmaxn acc x = acc ∨ fmaxn acc x = x := by
  unfold fmaxn
  split_ifs <;> simp

theorem foldl_fmaxn_mem (l : List F) :
    ∀ acc, l.foldl fmaxn acc = acc ∨ l.foldl fmaxn acc ∈ l := by
  induction l with
  | nil => intro acc; left; rfl
  | cons x l ih =>
    intro acc
    rcases ih (fmaxn acc x) with h | h
    · rcases fmaxn_eq_or acc x with h2 | h2
      · left; rw [List.foldl_cons, h, h2]
      · right; rw [List.foldl_cons, h, h2]; exact List.mem_cons_self x l
    · right
      rw [List.foldl_cons]
      exact List.mem_cons_of_mem x h

theorem nanmax_mem (l : List F) (h : ∃ x ∈ l, isnan x = false) : nanmax l ∈ l := by
  rcases foldl_fmaxn_mem l F.nan with h2 | h2
  · have h3 := nanmax_nonnan l h
    rw [nanmax, h2] at h3
    simp [isnan] at h3
  · exact h2

theorem fle_fmaxn (acc x : F) (h : isnan acc = false) : fle acc (fmaxn acc x) = true := by
  unfold fmaxn
  split_ifs with h1 h2 h3
  · exact fle_refl_nonnan acc h
  · simp_all
  · exact flt_fle acc x h3
  · exact fle_refl_nonnan acc h

theorem fle_foldl_fmaxn (l : List F) :
    ∀ acc, isnan acc = false → fle acc (l.foldl fmaxn acc) = true := by
  induction l with
  | nil => intro acc h; exact fle_refl_nonnan acc h
  | cons x l ih =>
    intro acc h
    have h2 : isnan (fmaxn acc x) = false := fmaxn_nonnan acc x (Or.inl h)
    exact fle_trans acc (fmaxn acc x) _ (fle_fmaxn acc x h) (ih _ h2)

theorem fle_x_fmaxn (acc x : F) (hx : isnan x = false) : fle x (fmaxn acc x) = true := by
  unfold fmaxn
  split_ifs with h1 h2 h3
  · simp_all
  · exact fle_refl_nonnan x hx
  · exact fle_refl_nonnan x hx
  · have hacc : isnan acc = false := by simpa using h2
    exact flt_false_fle acc x hacc hx (by simpa using h3)

theorem le_nanmax_of_mem (x : F) (hnn : isnan x = false) :
    ∀ (l : List F) (acc : F), x ∈ l → fle x (l.foldl fmaxn acc) = true := by
  intro l
  induction l with
  | nil => intro acc h; simp at h
  | cons y l ih =>
    intro acc h
    rcases List.mem_cons.1 h with rfl | hm
    · have h1 : fle x (fmaxn acc x) = true := fle_x_fmaxn acc x hnn
      have h2 : isnan (fmaxn acc x) = false := fmaxn_nonnan acc x (Or.inr hnn)
      exact fle_trans x (fmaxn acc x) _ h1 (fle_foldl_fmaxn l _ h2)
    · exact ih _ hm

theorem foldl_fmaxn_all_nan (l : List F) :
    ∀ acc, (∀ x ∈ l, isnan x = true) → l.foldl fmaxn acc = acc := by
  induction l with
  | nil => intro acc _; rfl
  | cons x l ih =>
    intro acc h
    have hx : isnan x = true := h x (List.mem_cons_self x l)
    have hstep : fmaxn acc x = acc := by unfold fmaxn; simp [hx]
    rw [List.foldl_cons, hstep]
    exact ih acc (fun y hy => h y (List.mem_cons_of_mem x hy))

theorem clampEquiv_isnan (x y : F) (h : clampEquiv x y) : isnan x = isnan y := by
  rcases h with rfl | ⟨h1, rfl⟩ | ⟨h1, rfl⟩
  · rfl
  · have h2 := flt_nonnan_right (F.val 1) x h1
    simpa [isnan] using h2
  · have h2 := flt_nonnan_left x (F.val 0) h1
    simpa [isnan] using h2

theorem clampEquiv_clamp (x y : F) (h : clampEquiv x y) :
    clamp0 (clamp1 x) = clamp0 (clamp1 y) := by
  rcases h with rfl | ⟨h1, rfl⟩ | ⟨h1, rfl⟩
  · rfl
  · cases x with
    | nan => simp [fgt, flt] at h1
    | ninf => simp [fgt, flt] at h1
    | pinf => norm_num [clamp1, clamp0, fgt, flt]
    | val q =>
      simp only [fgt, flt, decide_eq_true_eq] at h1
      norm_num [clamp1, clamp0, fgt, flt, h1]
  · cases x with
    | nan => simp [flt] at h1
    | pinf => simp [flt] at h1
    | ninf => norm_num [clamp1, clamp0, fgt, flt]
    | val q =>
      simp only [flt, decide_eq_true_eq] at h1
      have hq : ¬ (1 : ℚ) < q := by linarith
      norm_num [clamp1, clamp0, fgt, flt, h1, hq]

theorem map_eq_of_rel {α β : Type} (f : α → β) (R : α → α → Prop)
    (hf : ∀ x y, R x y → f x = f y) :
    ∀ (l1 l2 : List α), List.Forall₂ R l1 l2 → l1.map f = l2.map f := by
  intro l1 l2 h
  induction h with
  | nil => rfl
  | cons hr _ ih =>
    simp only [List.map_cons]
    rw [hf _ _ hr, ih]

theorem gmap_eq_of_rel {α β : Type} (f : α → β) (R : α → α → Prop)
    (hf : ∀ x y, R x y → f x = f y) :
    ∀ (G1 G2 : Grid α), List.Forall₂ (List.Forall₂ R) G1 G2 → gmap f G1 = gmap f G2 := by
  intro G1 G2 h
  induction h with
  | nil => rfl
  | cons hr _ ih =>
    simp only [gmap, List.map_cons] at ih ⊢
    rw [map_eq_of_rel f R hf _ _ hr, ih]

theorem gmap_gmap {α β γ : Type} (f : β → γ) (g : α → β) (G : Grid α) :
    gmap f (gmap g G) = gmap (fun x => f (g x)) G := by
  simp [gmap, List.map_map, Function.comp]

theorem clampGrid_eq_of_rel (G1 G2 : Grid F)
    (h : List.Forall₂ (List.Forall₂ clampEquiv) G1 G2) : clampGrid G1 = clampGrid G2 := by
  unfold clampGrid
  rw [gmap_gmap, gmap_gmap]
  exact gmap_eq_of_rel _ clampEquiv (fun x y hxy => clampEquiv_clamp x y hxy) G1 G2 h

theorem getD_mem_or_default {α : Type} (l : List α) (i : ℕ) (d : α) :
    l.getD i d = d ∨ l.getD i d ∈ l := by
  by_cases h : i < l.length
  · right
    rw [List.getD_eq_getElem l d h]
    exact List.getElem_mem h
  · left
    exact List.getD_eq_default l d (le_of_not_lt h)

theorem mem_zip3With {α β γ δ : Type} (f : α → β → γ → δ) :
    ∀ (x : List α) (y : List β) (z : List γ) (w : δ),
      w ∈ zip3With f x y z → ∃ a b c, w = f a b c := by
  intro x
  induction x with
  | nil => intro y z w hw; exact absurd hw (List.not_mem_nil w)
  | cons a x ih =>
    intro y z w hw
    cases y with
    | nil => exact absurd hw (List.not_mem_nil w)
    | cons b y =>
      cases z with
      | nil => exact absurd hw (List.not_mem_nil w)
      | cons c z =>
        rcases List.mem_cons.1 hw with rfl | hm
        · exact ⟨a, b, c, rfl⟩
        · exact ih y z w hm

/-- Every pixel of any classify_9zones output grid is at most 9, whatever
the inputs, thresholds and mask; out-of-range reads give the 0 default. -/
theorem classify_grid_le9 (t : Thresh) (H A : Grid F) (nm : Option (Grid Bool)) (i j : ℕ) :
    gget (classify_9zones t H A nm) 0 i j ≤ 9 := by
  have key : ∀ M : Grid Bool, gget (classify_9zones t H A (some M)) 0 i j ≤ 9 := by
    intro M
    rw [classify_some_eq]
    unfold gget
    rcases getD_mem_or_default (gzip3 (fun x y z => classifyPixel t x y z) H A M) i []
      with hrow | hrow
    · rw [hrow]; simp
    · obtain ⟨r, s, q, hre⟩ := mem_zip3With _ H A M _ hrow
      rw [hre]
      rcases getD_mem_or_default (zip3With (fun x y z => classifyPixel t x y z) r s q) j 0
        with hv | hv
      · rw [hv]; omega
      · obtain ⟨x, y, z, he⟩ := mem_zip3With _ r s q _ hv
        rw [he]
        exact classifyPixel_le9 t x y z
  cases nm with
  | some M => exact key M
  | none => rw [classify_none_eq]; exact key _

/-- Claim C1: for every unmasked pixel with non-NaN values, and ordered
thresholds, the classifier follows the fixed (H bin, alpha sub-bin)
table: the Low H bin sends the three alpha sub-bins to 7 / 4 / 1, the
Medium bin to 8 / 5 / 2, the High bin to 9 / 6 / 3; in particular with
the default thresholds (H, alpha) = (0.3, 60) gives class 1, (0.7, 45)
gives class 5, and (0.95, 40) gives class 9. -/
theorem C1_zone_table :
    (∀ (t : Thresh) (h a : F),
      t.h_lo ≤ t.h_hi → t.a_l1 ≤ t.a_h1 → t.a_l2 ≤ t.a_h2 → t.a_l3 ≤ t.a_h3 →
      isnan h = false → isnan a = false →
      ((fle h (F.val t.h_lo) = true →
          (fle a (F.val t.a_l1) = true → classifyPixel t h a false = 7) ∧
          (fgt a (F.val t.a_l1) = true → fle a (F.val t.a_h1) = true →
            classifyPixel t h a false = 4) ∧
          (fgt a (F.val t.a_h1) = true → classifyPixel t h a false = 1)) ∧
       (fgt h (F.val t.h_lo) = true → fle h (F.val t.h_hi) = true →
          (fle a (F.val t.a_l2) = true → classifyPixel t h a false = 8) ∧
          (fgt a (F.val t.a_l2) = true → fle a (F.val t.a_h2) = true →
            classifyPixel t h a false = 5) ∧
          (fgt a (F.val t.a_h2) = true → classifyPixel t h a false = 2)) ∧
       (fgt h (F.val t.h_hi) = true →
          (fle a (F.val t.a_l3) = true → classifyPixel t h a false = 9) ∧
          (fgt a (F.val t.a_l3) = true → fle a (F.val t.a_h3) = true →
            classifyPixel t h a false = 6) ∧
          (fgt a (F.val t.a_h3) = true → classifyPixel t h a false = 3)))) ∧
    classifyPixel defaultThresh (F.val (mkRat 3 10)) (F.val 60) false = 1 ∧
    classifyPixel defaultThresh (F.val (mkRat 7 10)) (F.val 45) false = 5 ∧
    classifyPixel defaultThresh (F.val (mkRat 19 20)) (F.val 40) false = 9 := by
  refine ⟨?_, by decide, by decide, by decide⟩
  intro t h a hth o1 o2 o3 hh ha
  refine ⟨fun hl => ?_, fun hm1 hm2 => ?_, fun hhi => ?_⟩
  · rw [classifyPixel_low t hth h a hl]
    exact alphaChain_spec t.a_l1 t.a_h1 7 4 1 a o1
  · rw [classifyPixel_med t h a hm1 hm2]
    exact alphaChain_spec t.a_l2 t.a_h2 8 5 2 a o2
  · rw [classifyPixel_high t hth h a hhi]
    exact alphaChain_spec t.a_l3 t.a_h3 9 6 3 a o3

/-- Witness for C1: the Low H bin with alpha at most a_l1 gives class 7,
checked at the default thresholds with (H, alpha) = (0.25, 30). -/
theorem C1_zone_table_witness :
    classifyPixel defaultThresh (F.val (mkRat 1 4)) (F.val 30) false = 7 :=
  ((C1_zone_table.1 defaultThresh (F.val (mkRat 1 4)) (F.val 30)
      (by decide) (by decide) (by decide) (by decide) (by decide) (by decide)).1
      (by decide)).1 (by decide)

/-- Claim C2: bin boundaries belong to the lower bin: a pixel with
H = h_lo classifies in the Low H bin (its class is the Low alpha chain,
one of 7 / 4 / 1, not Medium), a pixel with H = h_hi in the Medium bin
(8 / 5 / 2, not High), and a pixel with alpha equal to the bin a_low
falls in the first alpha sub-bin (class 7, 8 or 9 by H bin), not the
middle one. -/
theorem C2_boundary_inclusive :
    ∀ (t : Thresh), t.h_lo < t.h_hi → t.a_l1 ≤ t.a_h1 → t.a_l2 ≤ t.a_h2 →
      t.a_l3 ≤ t.a_h3 →
    (∀ a : F, isnan a = false →
        classifyPixel t (F.val t.h_lo) a false = alphaChain t.a_l1 t.a_h1 7 4 1 a ∧
        classifyPixel t (F.val t.h_lo) a false ∈ ([7, 4, 1] : List ℕ)) ∧
    (∀ a : F, isnan a = false →
        classifyPixel t (F.val t.h_hi) a false = alphaChain t.a_l2 t.a_h2 8 5 2 a ∧
        classifyPixel t (F.val t.h_hi) a false ∈ ([8, 5, 2] : List ℕ)) ∧
    (∀ h : F, fle h (F.val t.h_lo) = true →
        classifyPixel t h (F.val t.a_l1) false = 7) ∧
    (∀ h : F, fgt h (F.val t.h_lo) = true → fle h (F.val t.h_hi) = true →
        classifyPixel t h (F.val t.a_l2) false = 8) ∧
    (∀ h : F, fgt h (F.val t.h_hi) = true →
        classifyPixel t h (F.val t.a_l3) false = 9) := by
  intro t hth o1 o2 o3
  have hthle : t.h_lo ≤ t.h_hi := le_of_lt hth
  refine ⟨fun a ha => ?_, fun a ha => ?_, fun h hl => ?_, fun h hm1 hm2 => ?_,
    fun h hhi => ?_⟩
  · have hl : fle (F.val t.h_lo) (F.val t.h_lo) = true := by simp [fle]
    have e := classifyPixel_low t hthle (F.val t.h_lo) a hl
    refine ⟨e, ?_⟩
    rw [e]
    rcases alphaChain_mem t.a_l1 t.a_h1 7 4 1 a ha with h1 | h1 | h1 <;> simp [h1]
  · have hm1 : fgt (F.val t.h_hi) (F.val t.h_lo) = true := by simp [fgt, flt, hth]
    have hm2 : fle (F.val t.h_hi) (F.val t.h_hi) = true := by simp [fle]
    have e := classifyPixel_med t (F.val t.h_hi) a hm1 hm2
    refine ⟨e, ?_⟩
    rw [e]
    rcases alphaChain_mem t.a_l2 t.a_h2 8 5 2 a ha with h1 | h1 | h1 <;> simp [h1]
  · rw [classifyPixel_low t hthle h (F.val t.a_l1) hl]
    exact (alphaChain_spec t.a_l1 t.a_h1 7 4 1 (F.val t.a_l1) o1).1 (by simp [fle])
  · rw [classifyPixel_med t h (F.val t.a_l2) hm1 hm2]
    exact (alphaChain_spec t.a_l2 t.a_h2 8 5 2 (F.val t.a_l2) o2).1 (by simp [fle])
  · rw [classifyPixel_high t hthle h (F.val t.a_l3) hhi]
    exact (alphaChain_spec t.a_l3 t.a_h3 9 6 3 (F.val t.a_l3) o3).1 (by simp [fle])

/-- Witness for C2: with default thresholds, H exactly at h_lo = 0.5 and
alpha exactly at a_l1 = 42.5 lands in class 7 (Low bin, first sub-bin). -/
theorem C2_boundary_inclusive_witness :
    classifyPixel defaultThresh (F.val (mkRat 1 2)) (F.val defaultThresh.a_l1) false = 7 :=
  (C2_boundary_inclusive defaultThresh (by decide) (by decide) (by decide)
      (by decide)).2.2.1 (F.val (mkRat 1 2)) (by decide)

/-- Claim C3: with ordered thresholds, a pixel that the (NaN-derived)
nodata mask does not cover satisfies exactly one of the nine (H bin,
alpha sub-bin) membership tests, and the classifier gives it exactly one
nonzero class, a value in 1..9. -/
theorem C3_exactly_one (t : Thresh) (h a : F)
    (hth : t.h_lo ≤ t.h_hi) (o1 : t.a_l1 ≤ t.a_h1) (o2 : t.a_l2 ≤ t.a_h2)
    (o3 : t.a_l3 ≤ t.a_h3) (hh : isnan h = false) (ha : isnan a = false) :
    (combos t h a).count true = 1 ∧
    1 ≤ classifyPixel t h a false ∧ classifyPixel t h a false ≤ 9 :=
  ⟨combos_count_one t h a hth o1 o2 o3 hh ha,
   classifyPixel_pos t h a hh ha, classifyPixel_le9 t h a false⟩

/-- Witness for C3 at the default thresholds and (H, alpha) = (0.7, 45). -/
theorem C3_exactly_one_witness :
    (combos defaultThresh (F.val (mkRat 7 10)) (F.val 45)).count true = 1 ∧
    1 ≤ classifyPixel defaultThresh (F.val (mkRat 7 10)) (F.val 45) false ∧
    classifyPixel defaultThresh (F.val (mkRat 7 10)) (F.val 45) false ≤ 9 :=
  C3_exactly_one defaultThresh (F.val (mkRat 7 10)) (F.val 45)
    (by decide) (by decide) (by decide) (by decide) (by decide) (by decide)

/-- Claim C8: the classifier is total and never fails: for every
threshold tuple, ordered or not, every pixel of every output grid lies in
0..9; every pixel value (NaN, infinite or out of range alike) yields a
class at most 9; and an unmasked pixel with non-NaN values always
receives a nonzero class, whichever bin its values fall into. -/
theorem C8_total :
    (∀ (t : Thresh) (h a : F) (m : Bool), classifyPixel t h a m ≤ 9) ∧
    (∀ (t : Thresh) (h a : F), isnan h = false → isnan a = false →
      1 ≤ classifyPixel t h a false) ∧
    (∀ (t : Thresh) (H A : Grid F) (nm : Option (Grid Bool)) (i j : ℕ),
      gget (classify_9zones t H A nm) 0 i j ≤ 9) :=
  ⟨fun t h a m => classifyPixel_le9 t h a m,
   fun t h a hh ha => classifyPixel_pos t h a hh ha,
   fun t H A nm i j => classify_grid_le9 t H A nm i j⟩

/-- An unordered, scrambled threshold tuple (h_lo = 0.9 > h_hi = 0.5 and
descending alpha pairs), used to exercise the no-validation path. -/
def scrambledThresh : Thresh :=
  { h_lo := mkRat 9 10, h_hi := mkRat 1 2,
    a_l1 := 55, a_h1 := 45,
    a_l2 := 50, a_h2 := 40,
    a_l3 := 55, a_h3 := 45 }

/-- Witness for C8: an unordered threshold tuple (h_lo = 0.9 > h_hi =
0.5) and an out-of-range pixel still give a class in 1..9. -/
theorem C8_total_witness :
    1 ≤ classifyPixel scrambledThresh (F.val 5) (F.val (-10)) false :=
  C8_total.2.1 scrambledThresh (F.val 5) (F.val (-10)) (by decide) (by decide)

/-- Claim C4: wherever the supplied nodata mask is true, the output class
is 0, regardless of the H and alpha values at that pixel (NaN or
out-of-range included): the final masked assignment overrides any class
the bin logic computed. -/
theorem C4_nodata_dominance (t : Thresh) (H A : Grid F) (M : Grid Bool) (i j : ℕ)
    (hA : gdims A = gdims H) (hM : gdims M = gdims H)
    (hi : i < H.length) (hj : j < (H.getD i []).length)
    (hmask : gget M false i j = true) :
    gget (classify_9zones t H A (some M)) 0 i j = 0 := by
  rw [classify_gget t H A M i j hA hM hi hj, hmask]
  rfl

/-- Witness for C4: a masked pixel whose H is NaN and whose alpha is the
out-of-range 200 still gets class 0. -/
theorem C4_nodata_dominance_witness :
    gget (classify_9zones defaultThresh [[F.nan]] [[F.val 200]] (some [[true]])) 0 0 0 = 0 :=
  C4_nodata_dominance defaultThresh [[F.nan]] [[F.val 200]] [[true]] 0 0
    (by decide) (by decide) (by decide) (by decide) (by decide)

/-- Claim C5: with no supplied mask, the mask classify_9zones applies is
true exactly where H or alpha_deg is NaN: the output pixel is 0 whenever
either input value is NaN and the bin-logic class otherwise. -/
theorem C5_default_mask (t : Thresh) (H A : Grid F) (i j : ℕ)
    (hA : gdims A = gdims H) (hi : i < H.length) (hj : j < (H.getD i []).length) :
    gget (classify_9zones t H A none) 0 i j
      = if isnan (gget H F.nan i j) || isnan (gget A F.nan i j) then 0
        else classifyPixel t (gget H F.nan i j) (gget A F.nan i j) false := by
  rw [classify_none_eq]
  have hM : gdims (derivedMask H A) = gdims H := gdims_gzip _ H A hA
  rw [classify_gget t H A (derivedMask H A) i j hA hM hi hj]
  have lA : A.length = H.length := by
    have := congrArg List.length hA
    simpa [gdims_length] using this
  have rA : (A.getD i []).length = (H.getD i []).length := by
    rw [← gdims_row, ← gdims_row, hA]
  have hd : gget (derivedMask H A) false i j
      = (isnan (gget H F.nan i j) || isnan (gget A F.nan i j)) :=
    gget_gzip _ H A i j hi (lA ▸ hi) hj (rA ▸ hj) F.nan F.nan false
  rw [hd]
  cases hcase : (isnan (gget H F.nan i j) || isnan (gget A F.nan i j)) with
  | true => simp [classifyPixel]
  | false => simp

/-- Witness for C5: a NaN H pixel with no supplied mask gets class 0. -/
theorem C5_default_mask_witness :
    gget (classify_9zones defaultThresh [[F.nan]] [[F.val 30]] none) 0 0 0
      = if isnan (gget [[F.nan]] F.nan 0 0) || isnan (gget [[F.val 30]] F.nan 0 0) then 0
        else classifyPixel defaultThresh (gget [[F.nan]] F.nan 0 0)
          (gget [[F.val 30]] F.nan 0 0) false :=
  C5_default_mask defaultThresh [[F.nan]] [[F.val 30]] 0 0 (by decide) (by decide) (by decide)

/-- Claim C10: classify_9zones is pure and pixel-local: the output at
pixel (i, j) is a function of only that pixel's H, alpha and mask entries
and the thresholds (in the source, all nine assignments and the nodata
overwrite write only into the freshly allocated cls array, so the input
grids are never mutated; the only H mutation in the pipeline is the
orchestrator's clamp, modelled separately in clampGrid). -/
theorem C10_pixel_local (t : Thresh) (H A : Grid F) (M : Grid Bool) (i j : ℕ)
    (hA : gdims A = gdims H) (hM : gdims M = gdims H)
    (hi : i < H.length) (hj : j < (H.getD i []).length) :
    gget (classify_9zones t H A (some M)) 0 i j
      = classifyPixel t (gget H F.nan i j) (gget A F.nan i j) (gget M false i j) :=
  classify_gget t H A M i j hA hM hi hj

/-- Witness for C10 on a 2 x 2 grid: pixel (1, 0) of the output is the
pointwise classifier applied to pixel (1, 0) of the inputs. -/
theorem C10_pixel_local_witness :
    gget (classify_9zones defaultThresh
        [[F.val (mkRat 3 10), F.val (mkRat 7 10)], [F.val (mkRat 19 20), F.nan]]
        [[F.val 60, F.val 45], [F.val 40, F.val 10]]
        (some [[false, false], [false, false]])) 0 1 0
      = classifyPixel defaultThresh
          (gget [[F.val (mkRat 3 10), F.val (mkRat 7 10)], [F.val (mkRat 19 20), F.nan]]
            F.nan 1 0)
          (gget [[F.val 60, F.val 45], [F.val 40, F.val 10]] F.nan 1 0)
          (gget [[false, false], [false, false]] false 1 0) :=
  C10_pixel_local defaultThresh
    [[F.val (mkRat 3 10), F.val (mkRat 7 10)], [F.val (mkRat 19 20), F.nan]]
    [[F.val 60, F.val 45], [F.val 40, F.val 10]]
    [[false, false], [false, false]] 1 0 (by decide) (by decide) (by decide) (by decide)

/-- Claim C6 as stated is false: this grid's maximum finite value is
1.0, at most 1.7, yet because it also holds +inf (which np.nanmax does
not ignore) the grid is passed through unchanged instead of being
converted elementwise. -/
theorem C6_counterexample :
    (∀ x ∈ ([[F.val 1, F.pinf]] : Grid F).flatten, finiteLe (mkRat 17 10) x = true) ∧
    convert_alpha_to_degrees 2 [[F.val 1, F.pinf]] = [[F.val 1, F.pinf]] ∧
    gmap (np_degrees 2) [[F.val 1, F.pinf]] ≠ [[F.val 1, F.pinf]] :=
  ⟨by decide, by decide, by norm_num [gmap, np_degrees]⟩

/-- Claim C6 (amended): the whole-grid radians decision uses np.nanmax,
which ignores NaNs but not infinities: a grid with no +inf entry and at
least one non-NaN entry is converted elementwise exactly when every
finite value is at most 1.7; a grid holding any finite value above 1.7
is passed through unchanged, and so is an all-NaN grid. -/
theorem C6_units_nanmax :
    (∀ (c : ℚ) (alpha : Grid F), F.pinf ∉ alpha.flatten →
        (∃ x ∈ alpha.flatten, isnan x = false) →
        (∀ x ∈ alpha.flatten, finiteLe (mkRat 17 10) x = true) →
        convert_alpha_to_degrees c alpha = gmap (np_degrees c) alpha) ∧
    (∀ (c : ℚ) (alpha : Grid F) (q : ℚ), F.val q ∈ alpha.flatten → mkRat 17 10 < q →
        convert_alpha_to_degrees c alpha = alpha) ∧
    (∀ (c : ℚ) (alpha : Grid F), (∀ x ∈ alpha.flatten, isnan x = true) →
        convert_alpha_to_degrees c alpha = alpha) := by
  refine ⟨?_, ?_, ?_⟩
  · intro c alpha hpinf hnn hle
    have hm : nanmax alpha.flatten ∈ alpha.flatten := nanmax_mem _ hnn
    have hmn : isnan (nanmax alpha.flatten) = false := nanmax_nonnan _ hnn
    have hfle : fle (nanmax alpha.flatten) (F.val (mkRat 17 10)) = true := by
      cases hcase : nanmax alpha.flatten with
      | nan => rw [hcase] at hmn; simp [isnan] at hmn
      | pinf => rw [hcase] at hm; exact absurd hm hpinf
      | ninf => simp [fle]
      | val q =>
        have hq := hle _ (hcase ▸ hm)
        simp only [finiteLe, decide_eq_true_eq] at hq
        simp [fle, hq]
    simp [convert_alpha_to_degrees, autodetect_alpha_units, hfle]
  · intro c alpha q hq hgt
    have h1 : fle (F.val q) (nanmax alpha.flatten) = true :=
      le_nanmax_of_mem (F.val q) (by simp [isnan]) alpha.flatten F.nan hq
    have hfle : fle (nanmax alpha.flatten) (F.val (mkRat 17 10)) = false := by
      cases hco : fle (nanmax alpha.flatten) (F.val (mkRat 17 10)) with
      | false => rfl
      | true =>
        have h3 := fle_trans (F.val q) _ (F.val (mkRat 17 10)) h1 hco
        simp only [fle, decide_eq_true_eq] at h3
        linarith
    simp [convert_alpha_to_degrees, autodetect_alpha_units, hfle]
  · intro c alpha hall
    have hnm : nanmax alpha.flatten = F.nan := foldl_fmaxn_all_nan alpha.flatten F.nan hall
    have hfle : fle (nanmax alpha.flatten) (F.val (mkRat 17 10)) = false := by
      rw [hnm]; rfl
    simp [convert_alpha_to_degrees, autodetect_alpha_units, hfle]

/-- Witness for C6 (amended): a finite radians-scale grid (max 1.2) is
converted; its hypotheses hold by computation. -/
theorem C6_units_nanmax_witness :
    convert_alpha_to_degrees 2 [[F.val 1, F.val (mkRat 6 5)]]
      = gmap (np_degrees 2) [[F.val 1, F.val (mkRat 6 5)]] :=
  C6_units_nanmax.1 2 [[F.val 1, F.val (mkRat 6 5)]] (by decide) (by decide) (by decide)

/-- Claim C7 as stated is false: a file holding 7 elements for a declared
2 x 3 raster (so its byte length is 7 elements, not the exact 6) is
accepted without error: np.fromfile with a count reads only the first 6
elements, so the size check passes. -/
theorem C7_counterexample :
    (List.replicate 7 (F.val 0)).length ≠ 2 * 3 ∧
    (read_raw_binary (List.replicate 7 (F.val 0)) 2 3).isOk = true := by decide

/-- Claim C7 (amended): read_raw_binary raises the size-mismatch error
exactly when the file holds fewer than width * height elements; a file
with at least that many elements is accepted, the extra content silently
ignored. -/
theorem C7_size_check (data : List F) (width height : ℕ) :
    (read_raw_binary data width height).isOk = false ↔ data.length < width * height := by
  unfold read_raw_binary np_fromfile
  by_cases hlen : data.length < width * height
  · have hmin : (data.take (width * height)).length ≠ width * height := by
      rw [List.length_take]; omega
    simp [hmin, Except.isOk, Except.toBool, hlen]
  · have hmin : ¬ (data.take (width * height)).length ≠ width * height := by
      rw [List.length_take]; omega
    simp [hmin, Except.isOk, Except.toBool, hlen]

/-- Claim C9 as stated is false: the nodata sentinel comparison happens
before the clamp, so with a declared H sentinel of 1.0 a run whose H
pixel is 1.05 (giving class 6) and a run whose H pixel is the clamped
1.0 (masked, giving class 0) produce different class maps. -/
theorem C9_counterexample :
    fgt (F.val (mkRat 21 20)) (F.val 1) = true ∧
    main_classify 0 defaultThresh [[F.val (mkRat 21 20)]] [[F.val 50]]
        (some (F.val 1)) none = [[6]] ∧
    main_classify 0 defaultThresh [[F.val 1]] [[F.val 50]]
        (some (F.val 1)) none = [[0]] := by decide

/-- Claim C9 (amended): when the H raster declares no nodata sentinel
(its mask is the NaN test, which the replacement cannot change), two
runs whose H grids differ only by replacing values above 1.0 with 1.0 or
values below 0.0 with 0.0 produce identical class maps: after the
orchestrator's clamp the pipeline cannot distinguish them. -/
theorem C9_clamp_invariant (c : ℚ) (t : Thresh) (H1 H2 Alpha : Grid F)
    (nodata2 : Option F) (h : List.Forall₂ (List.Forall₂ clampEquiv) H1 H2) :
    main_classify c t H1 Alpha none nodata2 = main_classify c t H2 Alpha none nodata2 := by
  have e1 : gmap (fun x => isnan x) H1 = gmap (fun x => isnan x) H2 :=
    gmap_eq_of_rel _ clampEquiv (fun x y hxy => clampEquiv_isnan x y hxy) H1 H2 h
  have e2 : clampGrid H1 = clampGrid H2 := clampGrid_eq_of_rel H1 H2 h
  simp only [main_classify]
  rw [e1, e2]

/-- Witness for C9 (amended): H = 1.05 and H = 1.0 with NaN-derived masks
give the same class map. -/
theorem C9_clamp_invariant_witness :
    main_classify 0 defaultThresh [[F.val (mkRat 21 20)]] [[F.val 50]] none none
      = main_classify 0 defaultThresh [[F.val 1]] [[F.val 50]] none none :=
  C9_clamp_invariant 0 defaultThresh [[F.val (mkRat 21 20)]] [[F.val 1]] [[F.val 50]] none
    (List.Forall₂.cons
      (List.Forall₂.cons (Or.inr (Or.inl ⟨by decide, rfl⟩)) List.Forall₂.nil)
      List.Forall₂.nil)

example : classifyPixel defaultThresh (F.val (mkRat 3 10)) (F.val 60) false = 1 := by decide

example : classifyPixel defaultThresh (F.val (mkRat 7 10)) (F.val 45) false = 5 := by decide

example : classifyPixel defaultThresh (F.val (mkRat 19 20)) (F.val 40) false = 9 := by decide

example : classifyPixel defaultThresh F.nan (F.val 30) false = 0 := by decide

end HA9
